import Mathlib

/-!
Verification of the malfit job-lifecycle engine (`backend/app/worker.py`,
`backend/app/main.py`) against its natural-language specification.

The pipeline's effectful boundary (subprocess invocations of
ffmpeg/ffprobe, the remote Whisper/GPT calls, and the filesystem) is
modelled by environment records supplying the outcome of each external
call; the control flow, string manipulation and Job-Store write sequence
of the Python source are translated statement by statement.  Job-Store
and filesystem effects are reified as an `Event` trace so that the
spec's invariants (status state machine, progress checkpoints, cleanup,
artifact paths) become statements about the trace.
-/

namespace Malfit

/-- Result of a completed `subprocess.run(cmd, capture_output=True)` call:
return code, captured stdout and captured stderr (already decoded, since
the source decodes with `errors="ignore"`). -/
structure ProcResult where
  returncode : Int
  stdout : String
  stderr : String
deriving DecidableEq, Repr

/-- Python `str.strip()`: remove whitespace from both ends. -/
def pyStrip (s : String) : String :=
  String.mk (((s.data.dropWhile Char.isWhitespace).reverse.dropWhile Char.isWhitespace).reverse)

/-- Python `err[-1200:] if len(err) > 1200 else err` from `run_ffmpeg`:
the trailing 1200 characters of the stderr text. -/
def tail1200 (err : String) : String :=
  if err.length > 1200 then String.mk (err.data.drop (err.length - 1200)) else err

/-- Python `str(True) / str(False)` as interpolated into log f-strings. -/
def pyBoolStr (b : Bool) : String := if b then "True" else "False"

/-! ### pathlib.Path fragment

The source uses `Path.with_suffix`, `Path.with_name`, `Path.name`,
`Path.suffix` and the `/` join.  We model a path as its string and
implement the name/suffix arithmetic exactly as `pathlib` does: the name
is the part after the last `/`; the suffix is the part of the name from
its last `.` provided that dot is neither the first nor the last
character of the name. -/

/-- Characters of the final path component (after the last `/`). -/
def nameChars (cs : List Char) : List Char :=
  (cs.reverse.takeWhile (fun c => c ≠ '/')).reverse

/-- Characters of the directory part, including the trailing `/` when one
is present; `cs = dirChars cs ++ nameChars cs`. -/
def dirChars (cs : List Char) : List Char :=
  (cs.reverse.dropWhile (fun c => c ≠ '/')).reverse

/-- Split a file name into (stem, suffix) following `pathlib`: the suffix
starts at the last `.` when its index `i` satisfies `0 < i < len - 1`,
otherwise the suffix is empty. -/
def extSplit (n : List Char) : List Char × List Char :=
  let post := n.reverse.takeWhile (fun c => c ≠ '.')
  if post.length = n.length then (n, [])
  else
    let i := n.length - post.length - 1
    if 0 < i ∧ i < n.length - 1 then (n.take i, n.drop i) else (n, [])

/-- `Path(p).with_suffix(suf)` on the string representation. -/
def pathWithSuffix (p : String) (suf : String) : String :=
  String.mk (dirChars p.data ++ (extSplit (nameChars p.data)).1 ++ suf.data)

/-- `Path(p).with_name(n)` on the string representation. -/
def pathWithName (p : String) (n : String) : String :=
  String.mk (dirChars p.data ++ n.data)

/-- `Path(p).name`. -/
def pathName (p : String) : String := String.mk (nameChars p.data)

/-- `Path(p).suffix`. -/
def pathSuffix (p : String) : String := String.mk (extSplit (nameChars p.data)).2

/-- `str(Path(s))`: `pathlib` normalises the empty string to `"."`
(`Path("") == PosixPath('.')`).  Other normalisations (duplicate or
trailing slashes) do not arise for the paths this program builds. -/
def pyPathOfString (s : String) : String := if s.isEmpty then "." else s

/-- `OUT = ROOT/"out"` with the default `ROOT_WORKDIR=/tmp/malfit`. -/
def OUTDIR : String := "/tmp/malfit/out"

/-- `PurePath` join `d / n` for a relative, non-empty `n`. -/
def pathJoin (d n : String) : String := d ++ "/" ++ n

/-! ### ffprobe / ffmpeg helpers (`worker.py` lines 46-92) -/

/-- Value of `durationSec`: Python's `float`.  We keep the value
symbolic — either the literal `0.0` or `float(s)` for the probed stdout
`s` — because no claim depends on float arithmetic, only on *which*
value is returned. -/
inductive PyFloat where
  | zero
  | ofString (s : String)
deriving DecidableEq, Repr

/-- `ffprobe_duration` (`worker.py` 46-55).  `probe` is the outcome of the
`subprocess.run` call (`.error` when it raises), `floatParses s` tells
whether Python `float(s)` succeeds (a `ValueError` is swallowed by the
bare `except`, yielding the final `return 0.0`).  The bare
`try/except: pass` makes the function total, so its model returns
`PyFloat` rather than `Except`. -/
def ffprobe_duration (probe : Except Unit ProcResult) (floatParses : String → Bool) : PyFloat :=
  match probe with
  | .error _ => .zero
  | .ok res =>
    if res.returncode == 0 then
      let s := pyStrip res.stdout
      if s.isEmpty then .zero
      else if floatParses s then .ofString s else .zero
    else .zero

/-- `ffprobe_has_audio` (`worker.py` 57-65): `bool(out)` of the stripped
stdout; `False` when the subprocess call raises.  Note the source
ignores the return code here. -/
def ffprobe_has_audio (probe : Except Unit ProcResult) : Bool :=
  match probe with
  | .error _ => false
  | .ok res => !(pyStrip res.stdout).isEmpty

/-- `run_ffmpeg` (`worker.py` 67-73) applied to the subprocess outcome:
returns `(returncode == 0, trailing 1200 chars of stderr)`.  The
`-hide_banner` argument insertion only alters the command line, not the
modelled result. -/
def run_ffmpeg (p : ProcResult) : Bool × String :=
  (p.returncode == 0, tail1200 p.stderr)

instance exceptDecEq {ε α : Type} [DecidableEq ε] [DecidableEq α] :
    DecidableEq (Except ε α) := fun x y =>
  match x, y with
  | .error a, .error b =>
    if h : a = b then .isTrue (by rw [h]) else .isFalse (by intro hc; cases hc; exact h rfl)
  | .error _, .ok _ => .isFalse (by intro hc; cases hc)
  | .ok _, .error _ => .isFalse (by intro hc; cases hc)
  | .ok a, .ok b =>
    if h : a = b then .isTrue (by rw [h]) else .isFalse (by intro hc; cases hc; exact h rfl)

/-- Environment for one call of `extract_audio_with_fallback`: the
audio-stream probe outcome, the three ffmpeg subprocess outcomes (used
only if the ladder reaches them) and whether each tier's output file
exists after its run. -/
structure XEnv where
  audioProbe : Except Unit ProcResult
  copyRun : ProcResult
  copyOut : Bool
  aacRun : ProcResult
  aacOut : Bool
  wavRun : ProcResult
  wavOut : Bool
deriving DecidableEq, Repr

/-- Message of the no-audio `RuntimeError` (`worker.py` line 77). -/
def noAudioMsg : String := "입력 영상에 오디오 트랙이 없습니다. (무음 영상)"

/-- `extract_audio_with_fallback` (`worker.py` 75-92).  The first
component is the returned path or the raised `RuntimeError` message;
the second instruments the source's sequential calls, recording which
ladder tiers (1 = stream copy, 2 = AAC re-encode, 3 = PCM wav) were
invoked, in order. -/
def extract_audio_with_fallback (env : XEnv) (src : String) :
    Except String String × List Nat :=
  if ffprobe_has_audio env.audioProbe = false then
    (.error noAudioMsg, [])
  else
    let base := pathWithSuffix src ""
    let m4a_copy := pathWithSuffix base ".m4a"
    let m4a_aac := pathWithSuffix (pathWithName base (pathName base ++ "_aac")) ".m4a"
    let wav_path := pathWithSuffix base ".wav"
    let r1 := run_ffmpeg env.copyRun
    if r1.1 && env.copyOut then (.ok m4a_copy, [1])
    else
      let r2 := run_ffmpeg env.aacRun
      if r2.1 && env.aacOut then (.ok m4a_aac, [1, 2])
      else
        let r3 := run_ffmpeg env.wavRun
        if r3.1 && env.wavOut then (.ok wav_path, [1, 2, 3])
        else
          (.error ("ffmpeg 추출 실패\n[copy]" ++ r1.2 ++ "\n[aac ]" ++ r2.2 ++ "\n[wav ]" ++ r3.2),
           [1, 2, 3])

/-- Tier `i` of the ladder succeeds when its ffmpeg run returns 0 *and*
its output file exists (`ok and path.exists()` in the source). -/
def tierOK (env : XEnv) (i : Nat) : Bool :=
  if i = 1 then (run_ffmpeg env.copyRun).1 && env.copyOut
  else if i = 2 then (run_ffmpeg env.aacRun).1 && env.aacOut
  else if i = 3 then (run_ffmpeg env.wavRun).1 && env.wavOut
  else false

/-! ### Job-Store / filesystem event trace -/

/-- One observable effect of the engine.  `wStatus`/`wProgress`/
`wDuration`/`wError`/`wResult` are the individual `hset` writes issued
by `set_status` (one per keyword argument, in argument order);
`logLine` is the `append_log` hset; `writeFile` is a
`Path.write_text`; `unlinkOk`/`unlinkRaised` record a `Path.unlink`
attempt and its outcome; `enqueue` records a queue push (the worker
never emits one — stated by claim C8). -/
inductive Event where
  | wStatus (s : String)
  | wProgress (n : Nat)
  | wDuration (d : PyFloat)
  | wError (s : String)
  | wResult (s : String)
  | logLine (s : String)
  | writeFile (path : String) (content : String)
  | unlinkOk (path : String)
  | unlinkRaised (path : String)
  | enqueue (queue : String) (jid : String)
deriving DecidableEq, Repr

/-- Environment of one worker-loop iteration: the Job-Store record read
by `hgetall` (`videoField`/`languageField` are `d.get("video")` /
`d.get("language")`), the filesystem as seen by the `vid.exists()`
check, the outcomes of every external call the iteration may make, and
the filesystem/unlink outcomes seen by the `finally` cleanup block. -/
structure JobEnv where
  videoField : Option String
  languageField : Option String
  fsExists : String → Bool
  durProbe : Except Unit ProcResult
  durParses : String → Bool
  audioProbeLog : Except Unit ProcResult
  xenv : XEnv
  whisperCall : Except String String
  rewriteCall : Except String (Option String)
  voCall : Except String (Option String)
  audioExistsCleanup : Bool
  audioUnlinkRaises : Bool
  vidExistsCleanup : Bool
  vidUnlinkRaises : Bool

/-- `vid = Path(d.get("video",""))` (`worker.py` line 134). -/
def vidStrOf (env : JobEnv) : String := pyPathOfString (env.videoField.getD "")

/-- `rewrite_srt` (`worker.py` 102-110): the remote chat call either
raises (propagated — there is no `try` around it) or returns a message
content; `content or srt_text` falls back to the input when the content
is `None` or empty. -/
def rewrite_srt (remote : Except String (Option String)) (srt_text : String) :
    Except String String :=
  match remote with
  | .error m => .error m
  | .ok content =>
    .ok (match content with
         | none => srt_text
         | some c => if c.isEmpty then srt_text else c)

/-- `make_vo_text` (`worker.py` 112-119): `(content or "").strip()`,
with a raising remote call propagated. -/
def make_vo_text (remote : Except String (Option String)) : Except String String :=
  match remote with
  | .error m => .error m
  | .ok content => .ok (pyStrip (content.getD ""))

/-- Artifact path `(OUT/jid).with_suffix(".srt")` (`worker.py` 153). -/
def srtPath (jid : String) : String := pathWithSuffix (pathJoin OUTDIR jid) ".srt"

/-- Artifact path for the rewritten transcript (`worker.py` 157). -/
def rewPath (jid : String) : String :=
  pathWithSuffix (pathJoin OUTDIR (jid ++ "_rewritten")) ".srt"

/-- Artifact path for the voice-over script (`worker.py` 161). -/
def voPath (jid : String) : String :=
  pathWithSuffix (pathJoin OUTDIR (jid ++ "_vo")) ".txt"

/-- Outcome of the `try` block of one loop iteration (`worker.py`
138-166): the events it issued, the `audio_path` binding visible to the
`finally` block, and the message of the raised exception if one
escaped the block. -/
structure TryResult where
  events : List Event
  audio : Option String
  err : Option String
deriving DecidableEq, Repr

/-- The `try` block of `run` (`worker.py` 138-166), translated statement
by statement into trace events. -/
def jobTry (env : JobEnv) (jid : String) (vid : String) : TryResult :=
  let e0 : List Event := [.wStatus "downloading", .wProgress 5]
  if env.fsExists vid = false then
    ⟨e0, none, some ("업로드된 파일 없음: " ++ vid)⟩
  else
    let dur := ffprobe_duration env.durProbe env.durParses
    let e2 := e0 ++ [.wDuration dur, .wStatus "audio_extract", .wProgress 15,
                     .logLine ("ffprobe audio? " ++ pyBoolStr (ffprobe_has_audio env.audioProbeLog))]
    match extract_audio_with_fallback env.xenv vid with
    | (.error m, _) => ⟨e2, none, some m⟩
    | (.ok audio, _) =>
      let e4 := e2 ++ [.logLine ("audio: " ++ pathSuffix audio),
                       .wStatus "whisper", .wProgress 40]
      match env.whisperCall with
      | .error m => ⟨e4, some audio, some m⟩
      | .ok srt_text =>
        let e6 := e4 ++ [.writeFile (srtPath jid) srt_text,
                         .wStatus "rewrite", .wProgress 70]
        match rewrite_srt env.rewriteCall srt_text with
        | .error m => ⟨e6, some audio, some m⟩
        | .ok rew =>
          let e8 := e6 ++ [.writeFile (rewPath jid) rew,
                           .wStatus "vo", .wProgress 85]
          match make_vo_text env.voCall with
          | .error m => ⟨e8, some audio, some m⟩
          | .ok vo =>
            ⟨e8 ++ [.writeFile (voPath jid) vo,
                    .wStatus "done", .wProgress 100,
                    .wResult ("/download/" ++ jid ++ "/srt|/download/" ++ jid ++
                              "/rewritten|/download/" ++ jid ++ "/vo"),
                    .logLine "완료 ✅"],
             some audio, none⟩

/-- The `except Exception` handler (`worker.py` 168-171): record the
terminal error state; no events when the `try` block completed. -/
def errorEvents (err : Option String) : List Event :=
  match err with
  | none => []
  | some m => [.wStatus "error", .wError m, .logLine ("에러 ❌ " ++ m)]

/-- The source-video half of the `finally` block (`worker.py` 177):
`if vid.exists(): vid.unlink(missing_ok=True)`. -/
def cleanupVidPart (env : JobEnv) (vid : String) : List Event :=
  if env.vidExistsCleanup then
    if env.vidUnlinkRaises then [.unlinkRaised vid] else [.unlinkOk vid]
  else []

/-- The `finally` block (`worker.py` 173-178): unlink the derived audio
file then the source video, each guarded by an existence check; a
raising unlink aborts the remaining deletions and is swallowed by the
inner `except: pass`. -/
def cleanupEvents (env : JobEnv) (vid : String) (audio : Option String) : List Event :=
  match audio with
  | some a =>
    if env.audioExistsCleanup then
      if env.audioUnlinkRaises then [.unlinkRaised a]
      else .unlinkOk a :: cleanupVidPart env vid
    else cleanupVidPart env vid
  | none => cleanupVidPart env vid

/-- One full worker-loop iteration for a dequeued job id
(`worker.py` 132-178): try block, except handler, finally block. -/
def processJob (env : JobEnv) (jid : String) : List Event :=
  let vid := vidStrOf env
  let t := jobTry env jid vid
  t.events ++ errorEvents t.err ++ cleanupEvents env vid t.audio

/-- The worker loop (`worker.py` 127-178) over a finite schedule of
`brpop` outcomes: `none` is a timeout (the loop re-polls), `some`
carries the dequeued job id and that iteration's environment. -/
def workerLoop : List (Option (String × JobEnv)) → List Event
  | [] => []
  | none :: rest => workerLoop rest
  | some (jid, env) :: rest => processJob env jid ++ workerLoop rest

/-- The Job-Store writes of the intake `upload` handler relevant to the
status field (`main.py` 192-193): `status="queued", progress=0`. -/
def uploadStatusEvents : List Event := [.wStatus "queued", .wProgress 0]

/-! ### Trace projections -/

/-- The status value of a status-field write, if `e` is one. -/
def statusOf : Event → Option String
  | .wStatus s => some s
  | _ => none

/-- The sequence of values written to the `status` field. -/
def statusWrites (tr : List Event) : List String := tr.filterMap statusOf

/-- The progress value of a progress-field write, if `e` is one. -/
def progressOf : Event → Option Nat
  | .wProgress n => some n
  | _ => none

/-- The sequence of values written to the `progress` field. -/
def progressWrites (tr : List Event) : List Nat := tr.filterMap progressOf

/-- The paths of the `write_text` events, in order. -/
def writtenPaths (tr : List Event) : List String :=
  tr.filterMap fun e => match e with
    | .writeFile p _ => some p
    | _ => none

/-- Whether the event is a file-deletion attempt. -/
def isUnlink : Event → Bool
  | .unlinkOk _ => true
  | .unlinkRaised _ => true
  | _ => false

/-- Whether the event writes to the Job Store (any `hset`). -/
def isStoreWrite : Event → Bool
  | .wStatus _ => true
  | .wProgress _ => true
  | .wDuration _ => true
  | .wError _ => true
  | .wResult _ => true
  | .logLine _ => true
  | _ => false

/-- The Job-Store writes of a trace, in order. -/
def storeWrites (tr : List Event) : List Event := tr.filter isStoreWrite

/-- Whether the event pushes a job id onto a queue. -/
def isEnqueue : Event → Bool
  | .enqueue _ _ => true
  | _ => false

/-- The last value written to the `status` field, i.e. the status a
poller sees once the iteration finished. -/
def finalStatus (tr : List Event) : Option String := (statusWrites tr).getLast?

/-- The status chain of a fully successful worker iteration, in source
order (`worker.py` 139, 146, 151, 155, 159, 163). -/
def chainStatuses : List String :=
  ["downloading", "audio_extract", "whisper", "rewrite", "vo", "done"]

/-- The spec's §3 status enum, verbatim (`queued | audio_extract |
transcribing | rewriting | voiceover | done | error`).  Modelled from
the spec's words, for comparison with the statuses the code writes. -/
def specStatusEnum : List String :=
  ["queued", "audio_extract", "transcribing", "rewriting", "voiceover", "done", "error"]

/-- The progress checkpoints in source order (`worker.py` 139, 146,
151, 155, 159, 163). -/
def progressCheckpoints : List Nat := [5, 15, 40, 70, 85, 100]

/-! ### The download endpoint (`main.py` 204-215) -/

/-- Result of `GET /download/{jid}/{kind}`. -/
inductive DownloadResult where
  | notFound
  | file (path : String) (media : String) (filename : String)
deriving DecidableEq, Repr

/-- `download` (`main.py` 204-215): map the kind selector to an artifact
path, 404 when the kind is unknown or the file does not exist, else
serve the file with its media type and name.  `fs` is the filesystem
existence predicate at request time. -/
def download (fs : String → Bool) (jid kind : String) : DownloadResult :=
  let base := pathJoin OUTDIR jid
  let path? : Option String :=
    if kind = "srt" then some (pathWithSuffix base ".srt")
    else if kind = "rewritten" then
      some (pathWithSuffix (pathWithName base (jid ++ "_rewritten")) ".srt")
    else if kind = "vo" then
      some (pathWithSuffix (pathWithName base (jid ++ "_vo")) ".txt")
    else none
  match path? with
  | none => .notFound
  | some p =>
    if fs p then
      .file p (if pathSuffix p = ".txt" then "text/plain" else "application/x-subrip")
        (pathName p)
    else .notFound

/-! ### List helpers -/

theorem takeWhile_append_stop {α : Type} (p : α → Bool) (l₁ l₂ : List α) (a : α)
    (h1 : ∀ x ∈ l₁, p x = true) (ha : p a = false) :
    (l₁ ++ a :: l₂).takeWhile p = l₁ := by
  induction l₁ with
  | nil => simp [List.takeWhile_cons, ha]
  | cons x xs ih =>
    have hx : p x = true := h1 x (by simp)
    simp only [List.cons_append, List.takeWhile_cons, hx, if_true]
    rw [ih (fun y hy => h1 y (by simp [hy]))]

theorem dropWhile_append_stop {α : Type} (p : α → Bool) (l₁ l₂ : List α) (a : α)
    (h1 : ∀ x ∈ l₁, p x = true) (ha : p a = false) :
    (l₁ ++ a :: l₂).dropWhile p = a :: l₂ := by
  induction l₁ with
  | nil => simp [List.dropWhile_cons, ha]
  | cons x xs ih =>
    have hx : p x = true := h1 x (by simp)
    simp only [List.cons_append, List.dropWhile_cons, hx, if_true]
    exact ih (fun y hy => h1 y (by simp [hy]))

theorem takeWhile_eq_self {α : Type} (p : α → Bool) (l : List α)
    (h : ∀ x ∈ l, p x = true) : l.takeWhile p = l := by
  induction l with
  | nil => simp
  | cons x xs ih =>
    have hx : p x = true := h x (by simp)
    simp only [List.takeWhile_cons, hx, if_true]
    rw [ih (fun y hy => h y (by simp [hy]))]

/-! ### Cleanup-phase projections: the `finally` block issues only
unlink attempts, never Job-Store writes -/

theorem vidPart_all_unlink (env : JobEnv) (vid : String) :
    ∀ e ∈ cleanupVidPart env vid, isUnlink e = true := by
  intro e he
  unfold cleanupVidPart at he
  split at he
  · split at he <;> (simp at he; subst he; rfl)
  · simp at he

theorem cleanup_all_unlink (env : JobEnv) (vid : String) (audio : Option String) :
    ∀ e ∈ cleanupEvents env vid audio, isUnlink e = true := by
  intro e he
  unfold cleanupEvents at he
  cases audio with
  | none => exact vidPart_all_unlink env vid e he
  | some a =>
    cases h1 : env.audioExistsCleanup with
    | false =>
      rw [h1] at he; simp only [Bool.false_eq_true, if_false] at he
      exact vidPart_all_unlink env vid e he
    | true =>
      rw [h1] at he; simp only [if_true] at he
      cases h2 : env.audioUnlinkRaises with
      | true =>
        rw [h2] at he; simp only [if_true] at he
        simp at he; subst he; rfl
      | false =>
        rw [h2] at he; simp only [Bool.false_eq_true, if_false] at he
        rcases List.mem_cons.mp he with rfl | he2
        · rfl
        · exact vidPart_all_unlink env vid e he2

theorem cleanup_storeWrites_nil (env : JobEnv) (vid : String) (audio : Option String) :
    storeWrites (cleanupEvents env vid audio) = [] := by
  rw [storeWrites, List.filter_eq_nil_iff]
  intro e he
  have := cleanup_all_unlink env vid audio e he
  cases e <;> simp_all [isUnlink, isStoreWrite]

theorem cleanup_statusWrites_nil (env : JobEnv) (vid : String) (audio : Option String) :
    statusWrites (cleanupEvents env vid audio) = [] := by
  rw [statusWrites, List.filterMap_eq_nil_iff]
  intro e he
  have := cleanup_all_unlink env vid audio e he
  cases e <;> simp_all [isUnlink, statusOf]

theorem cleanup_progressWrites_nil (env : JobEnv) (vid : String) (audio : Option String) :
    progressWrites (cleanupEvents env vid audio) = [] := by
  rw [progressWrites, List.filterMap_eq_nil_iff]
  intro e he
  have := cleanup_all_unlink env vid audio e he
  cases e <;> simp_all [isUnlink, progressOf]

theorem cleanup_writtenPaths_nil (env : JobEnv) (vid : String) (audio : Option String) :
    writtenPaths (cleanupEvents env vid audio) = [] := by
  rw [writtenPaths, List.filterMap_eq_nil_iff]
  intro e he
  have := cleanup_all_unlink env vid audio e he
  cases e <;> simp_all [isUnlink]

/-! ### Shape of one `try`-block execution -/

/-- Master case analysis of the `try` block: its status writes are the
first `n + 1` entries of the success chain, its progress writes the
first `n + 1` checkpoints, its artifact writes the first `n - 2`
artifact paths, and it completes without an exception exactly when all
six stages ran (`n = 5`). -/
theorem jobTry_shape (env : JobEnv) (jid vid : String) :
    ∃ n, n ≤ 5 ∧
      statusWrites (jobTry env jid vid).events = chainStatuses.take (n + 1) ∧
      progressWrites (jobTry env jid vid).events = progressCheckpoints.take (n + 1) ∧
      writtenPaths (jobTry env jid vid).events =
        [srtPath jid, rewPath jid, voPath jid].take (n - 2) ∧
      ((jobTry env jid vid).err = none ↔ n = 5) := by
  cases hfs : env.fsExists vid with
  | false =>
    exact ⟨0, by omega,
      by simp [jobTry, hfs, statusWrites, statusOf, chainStatuses],
      by simp [jobTry, hfs, progressWrites, progressOf, progressCheckpoints],
      by simp [jobTry, hfs, writtenPaths],
      by simp [jobTry, hfs]⟩
  | true =>
    rcases hx : extract_audio_with_fallback env.xenv vid with ⟨res, att⟩
    cases res with
    | error m =>
      exact ⟨1, by omega,
        by simp [jobTry, hfs, hx, statusWrites, statusOf, chainStatuses],
        by simp [jobTry, hfs, hx, progressWrites, progressOf, progressCheckpoints],
        by simp [jobTry, hfs, hx, writtenPaths],
        by simp [jobTry, hfs, hx]⟩
    | ok audio =>
      cases hw : env.whisperCall with
      | error m =>
        exact ⟨2, by omega,
          by simp [jobTry, hfs, hx, hw, statusWrites, statusOf, chainStatuses],
          by simp [jobTry, hfs, hx, hw, progressWrites, progressOf, progressCheckpoints],
          by simp [jobTry, hfs, hx, hw, writtenPaths],
          by simp [jobTry, hfs, hx, hw]⟩
      | ok srt_text =>
        cases hr : rewrite_srt env.rewriteCall srt_text with
        | error m =>
          exact ⟨3, by omega,
            by simp [jobTry, hfs, hx, hw, hr, statusWrites, statusOf, chainStatuses],
            by simp [jobTry, hfs, hx, hw, hr, progressWrites, progressOf, progressCheckpoints],
            by simp [jobTry, hfs, hx, hw, hr, writtenPaths],
            by simp [jobTry, hfs, hx, hw, hr]⟩
        | ok rew =>
          cases hv : make_vo_text env.voCall with
          | error m =>
            exact ⟨4, by omega,
              by simp [jobTry, hfs, hx, hw, hr, hv, statusWrites, statusOf, chainStatuses],
              by simp [jobTry, hfs, hx, hw, hr, hv, progressWrites, progressOf,
                progressCheckpoints],
              by simp [jobTry, hfs, hx, hw, hr, hv, writtenPaths],
              by simp [jobTry, hfs, hx, hw, hr, hv]⟩
          | ok vo =>
            exact ⟨5, by omega,
              by simp [jobTry, hfs, hx, hw, hr, hv, statusWrites, statusOf, chainStatuses],
              by simp [jobTry, hfs, hx, hw, hr, hv, progressWrites, progressOf,
                progressCheckpoints],
              by simp [jobTry, hfs, hx, hw, hr, hv, writtenPaths],
              by simp [jobTry, hfs, hx, hw, hr, hv]⟩

/-! ### Shape of one full worker-loop iteration -/

/-- `processJob` is the `try` events, then the `except` handler's
events, then the `finally` cleanup (definitional decomposition). -/
theorem processJob_decomp (env : JobEnv) (jid : String) :
    processJob env jid =
      (jobTry env jid (vidStrOf env)).events ++
        errorEvents (jobTry env jid (vidStrOf env)).err ++
        cleanupEvents env (vidStrOf env) (jobTry env jid (vidStrOf env)).audio := rfl

/-- Master shape of a full iteration's trace: statuses follow the
success chain up to the failure point with a final `error` write on
failure, progress writes are a prefix of the checkpoints, artifact
writes a prefix of the three artifact paths, and the last status write
is `done` exactly on full success and `error` otherwise. -/
theorem processJob_shape (env : JobEnv) (jid : String) :
    ∃ n, n ≤ 5 ∧
      statusWrites (processJob env jid) =
        chainStatuses.take (n + 1) ++ (if n = 5 then [] else ["error"]) ∧
      progressWrites (processJob env jid) = progressCheckpoints.take (n + 1) ∧
      writtenPaths (processJob env jid) =
        [srtPath jid, rewPath jid, voPath jid].take (n - 2) ∧
      finalStatus (processJob env jid) = some (if n = 5 then "done" else "error") ∧
      ((jobTry env jid (vidStrOf env)).err = none ↔ n = 5) := by
  obtain ⟨n, h5, hs, hp, hw, hiff⟩ := jobTry_shape env jid (vidStrOf env)
  have herr : statusWrites (errorEvents (jobTry env jid (vidStrOf env)).err) =
      (if n = 5 then [] else ["error"]) := by
    by_cases h : n = 5
    · rw [if_pos h, hiff.mpr h]; rfl
    · rw [if_neg h]
      rcases he : (jobTry env jid (vidStrOf env)).err with _ | m
      · exact absurd (hiff.mp he) h
      · rfl
  have herr2 : progressWrites (errorEvents (jobTry env jid (vidStrOf env)).err) = [] := by
    rcases (jobTry env jid (vidStrOf env)).err with _ | m <;> rfl
  have herr3 : writtenPaths (errorEvents (jobTry env jid (vidStrOf env)).err) = [] := by
    rcases (jobTry env jid (vidStrOf env)).err with _ | m <;> rfl
  have hst : statusWrites (processJob env jid) =
      chainStatuses.take (n + 1) ++ (if n = 5 then [] else ["error"]) := by
    rw [processJob_decomp, statusWrites, List.filterMap_append, List.filterMap_append,
      ← statusWrites, ← statusWrites, ← statusWrites, hs, herr,
      cleanup_statusWrites_nil, List.append_nil]
  refine ⟨n, h5, hst, ?_, ?_, ?_, hiff⟩
  · rw [processJob_decomp, progressWrites, List.filterMap_append, List.filterMap_append,
      ← progressWrites, ← progressWrites, ← progressWrites, hp, herr2,
      cleanup_progressWrites_nil, List.append_nil, List.append_nil]
  · rw [processJob_decomp, writtenPaths, List.filterMap_append, List.filterMap_append]
    have hw2 : writtenPaths (jobTry env jid (vidStrOf env)).events =
        [srtPath jid, rewPath jid, voPath jid].take (n - 2) := hw
    rw [← writtenPaths, ← writtenPaths, ← writtenPaths, hw2, herr3,
      cleanup_writtenPaths_nil, List.append_nil, List.append_nil]
  · rw [finalStatus, hst]
    interval_cases n <;> simp [chainStatuses]

/-- C4 — confirmed.  The progress values written during one worker
iteration are exactly the checkpoint sequence 5, 15, 40, 70, 85, 100
truncated at the failure point, hence non-decreasing. -/
theorem C4_progress_checkpoints (env : JobEnv) (jid : String) :
    (∃ n, n ≤ 5 ∧
        progressWrites (processJob env jid) = progressCheckpoints.take (n + 1)) ∧
      List.Chain' (· ≤ ·) (progressWrites (processJob env jid)) := by
  obtain ⟨n, h5, -, hp, -, -, -⟩ := processJob_shape env jid
  refine ⟨⟨n, h5, hp⟩, ?_⟩
  rw [hp]
  interval_cases n <;> simp [progressCheckpoints]

/-! ### Concrete environments for witnesses and counterexamples -/

/-- A fully successful iteration environment: the source exists, the
first ladder tier succeeds, every remote call answers. -/
def envAllOk : JobEnv :=
  { videoField := some "/tmp/malfit/uploads/j1.mp4"
    languageField := some "ko"
    fsExists := fun p => p = "/tmp/malfit/uploads/j1.mp4"
    durProbe := .ok ⟨0, "10.0", ""⟩
    durParses := fun _ => true
    audioProbeLog := .ok ⟨0, "aac", ""⟩
    xenv := { audioProbe := .ok ⟨0, "aac", ""⟩
              copyRun := ⟨0, "", ""⟩, copyOut := true
              aacRun := ⟨0, "", ""⟩, aacOut := true
              wavRun := ⟨0, "", ""⟩, wavOut := true }
    whisperCall := .ok "SRTTEXT"
    rewriteCall := .ok (some "REWRITTEN")
    voCall := .ok (some "VOSCRIPT")
    audioExistsCleanup := true
    audioUnlinkRaises := false
    vidExistsCleanup := true
    vidUnlinkRaises := false }

/-! ### C1 — job status state machine -/

/-- C1 — counterexample.  On a fully successful job the worker writes
the status value `downloading` (and later `whisper`, `rewrite`, `vo`),
none of which belong to the spec's §3 enum `queued | audio_extract |
transcribing | rewriting | voiceover | done | error`; the spec's
`transcribing`, `rewriting`, `voiceover` are never written. -/
theorem C1_counterexample :
    statusWrites (uploadStatusEvents ++ processJob envAllOk "j1") =
      ["queued", "downloading", "audio_extract", "whisper", "rewrite", "vo", "done"] ∧
    "downloading" ∈ statusWrites (uploadStatusEvents ++ processJob envAllOk "j1") ∧
    "downloading" ∉ specStatusEnum ∧
    "whisper" ∉ specStatusEnum ∧ "vo" ∉ specStatusEnum ∧
    "transcribing" ∉ statusWrites (uploadStatusEvents ++ processJob envAllOk "j1") := by
  decide

/-- C1 — amended.  Every value ever written to the status field (the
intake's `queued` plus the worker's writes) is one of `queued`,
`downloading`, `audio_extract`, `whisper`, `rewrite`, `vo`, `done`,
`error`, and the write sequence of one execution is a prefix of
`queued → downloading → audio_extract → whisper → rewrite → vo → done`
with `error` (if the prefix is proper) written once at the failure
point and nothing after it; no state is re-entered once left. -/
theorem C1_amended_status_machine (env : JobEnv) (jid : String) :
    ∃ n, n ≤ 5 ∧
      statusWrites (uploadStatusEvents ++ processJob env jid) =
        ("queued" :: chainStatuses).take (n + 2) ++ (if n = 5 then [] else ["error"]) ∧
      (∀ s ∈ statusWrites (uploadStatusEvents ++ processJob env jid),
        s ∈ "queued" :: chainStatuses ++ ["error"]) ∧
      (statusWrites (uploadStatusEvents ++ processJob env jid)).Nodup := by
  obtain ⟨n, h5, hs, -, -, -, -⟩ := processJob_shape env jid
  have hq : statusWrites (uploadStatusEvents ++ processJob env jid) =
      "queued" :: statusWrites (processJob env jid) := by
    rw [statusWrites, List.filterMap_append]; rfl
  have htake : ("queued" :: chainStatuses).take (n + 2) =
      "queued" :: chainStatuses.take (n + 1) := rfl
  refine ⟨n, h5, ?_, ?_, ?_⟩
  · rw [hq, hs, htake, List.cons_append]
  · intro s hsmem
    rw [hq, hs] at hsmem
    rcases List.mem_cons.mp hsmem with rfl | h2
    · exact List.mem_cons_self _ _
    · rcases List.mem_append.mp h2 with h3 | h3
      · exact List.mem_cons_of_mem _ (List.mem_append.mpr
          (Or.inl (List.take_subset _ _ h3)))
      · by_cases h : n = 5
        · rw [if_pos h] at h3; cases h3
        · rw [if_neg h] at h3
          have : s = "error" := by simpa using h3
          subst this
          exact List.mem_cons_of_mem _ (List.mem_append.mpr (Or.inr (by simp)))
  · rw [hq, hs]
    interval_cases n <;> simp [chainStatuses]

/-! ### C8 — failures caught at the loop boundary -/

/-- No event of a worker iteration is a queue push: the failed (or
successful) job id is never re-enqueued. -/
theorem jobTry_no_enqueue (env : JobEnv) (jid vid : String) (q j : String) :
    Event.enqueue q j ∉ (jobTry env jid vid).events := by
  cases hfs : env.fsExists vid with
  | false => simp [jobTry, hfs]
  | true =>
    rcases hx : extract_audio_with_fallback env.xenv vid with ⟨res, att⟩
    cases res with
    | error m => simp [jobTry, hfs, hx]
    | ok audio =>
      cases hw : env.whisperCall with
      | error m => simp [jobTry, hfs, hx, hw]
      | ok srt_text =>
        cases hr : rewrite_srt env.rewriteCall srt_text with
        | error m => simp [jobTry, hfs, hx, hw, hr]
        | ok rew =>
          cases hv : make_vo_text env.voCall with
          | error m => simp [jobTry, hfs, hx, hw, hr, hv]
          | ok vo => simp [jobTry, hfs, hx, hw, hr, hv]

theorem processJob_no_enqueue (env : JobEnv) (jid : String) (q j : String) :
    Event.enqueue q j ∉ processJob env jid := by
  rw [processJob_decomp]
  intro h
  rcases List.mem_append.mp h with h12 | h3
  · rcases List.mem_append.mp h12 with h1 | h2
    · exact jobTry_no_enqueue env jid (vidStrOf env) q j h1
    · rcases he : (jobTry env jid (vidStrOf env)).err with _ | m <;>
        rw [he] at h2 <;> simp [errorEvents] at h2
  · have := cleanup_all_unlink env (vidStrOf env) _ _ h3
    simp [isUnlink] at this

/-- C8 — confirmed.  When the stage sequence of a dequeued job raises,
the exception is absorbed at the loop boundary: the iteration's trace
records `status=error` with the failure description, the last status
write is `error`, the loop goes on to process the rest of the schedule
unchanged, and no event of the iteration re-enqueues any job id. -/
theorem C8_loop_boundary (env : JobEnv) (jid : String)
    (rest : List (Option (String × JobEnv))) (m : String)
    (h : (jobTry env jid (vidStrOf env)).err = some m) :
    workerLoop (some (jid, env) :: rest) = processJob env jid ++ workerLoop rest ∧
    Event.wStatus "error" ∈ processJob env jid ∧
    Event.wError m ∈ processJob env jid ∧
    finalStatus (processJob env jid) = some "error" ∧
    (∀ q j, Event.enqueue q j ∉ processJob env jid) := by
  refine ⟨rfl, ?_, ?_, ?_, fun q j => processJob_no_enqueue env jid q j⟩
  · rw [processJob_decomp, h]
    exact List.mem_append.mpr (Or.inl (List.mem_append.mpr (Or.inr (by simp [errorEvents]))))
  · rw [processJob_decomp, h]
    exact List.mem_append.mpr (Or.inl (List.mem_append.mpr (Or.inr (by simp [errorEvents]))))
  · obtain ⟨n, h5, -, -, -, hfin, hiff⟩ := processJob_shape env jid
    have hn : n ≠ 5 := fun h5eq => by
      rw [hiff.mpr h5eq] at h; cases h
    rwa [if_neg hn] at hfin

/-- Whisper failing remotely, everything before it fine. -/
def envWhisperFail : JobEnv := { envAllOk with whisperCall := .error "api down" }

/-- Witness for C8 at a concrete failing environment. -/
theorem C8_loop_boundary_witness :
    Event.wError "api down" ∈ processJob envWhisperFail "j1" ∧
    finalStatus (processJob envWhisperFail "j1") = some "error" :=
  ⟨(C8_loop_boundary envWhisperFail "j1" [] "api down" (by decide)).2.2.1,
   (C8_loop_boundary envWhisperFail "j1" [] "api down" (by decide)).2.2.2.1⟩

/-! ### C5 — unconditional cleanup -/

/-- C5 — confirmed.  The cleanup phase runs after every iteration
(success or error), consists solely of unlink attempts, contributes no
Job-Store write (so deletion failures can never alter the recorded
outcome), and — when the unlinks do not raise — deletes the derived
audio file (if one was produced and still exists) and the source video
(if it still exists). -/
theorem C5_cleanup (env : JobEnv) (jid : String) :
    processJob env jid =
      (jobTry env jid (vidStrOf env)).events ++
        errorEvents (jobTry env jid (vidStrOf env)).err ++
        cleanupEvents env (vidStrOf env) (jobTry env jid (vidStrOf env)).audio ∧
    (∀ e ∈ cleanupEvents env (vidStrOf env) (jobTry env jid (vidStrOf env)).audio,
        isUnlink e = true) ∧
    storeWrites (processJob env jid) =
      storeWrites ((jobTry env jid (vidStrOf env)).events ++
        errorEvents (jobTry env jid (vidStrOf env)).err) ∧
    (env.audioUnlinkRaises = false →
      (∀ a, (jobTry env jid (vidStrOf env)).audio = some a →
          env.audioExistsCleanup = true → Event.unlinkOk a ∈ processJob env jid) ∧
      (env.vidExistsCleanup = true → env.vidUnlinkRaises = false →
          Event.unlinkOk (vidStrOf env) ∈ processJob env jid)) := by
  refine ⟨processJob_decomp env jid,
    cleanup_all_unlink env (vidStrOf env) (jobTry env jid (vidStrOf env)).audio,
    ?_, ?_⟩
  · have h0 := cleanup_storeWrites_nil env (vidStrOf env) (jobTry env jid (vidStrOf env)).audio
    rw [processJob_decomp]
    unfold storeWrites at h0 ⊢
    rw [List.filter_append, h0, List.append_nil]
  · intro har
    have hvidmem : env.vidExistsCleanup = true → env.vidUnlinkRaises = false →
        Event.unlinkOk (vidStrOf env) ∈ cleanupVidPart env (vidStrOf env) := by
      intro h1 h2
      unfold cleanupVidPart
      rw [h1, if_pos rfl, h2]
      simp
    constructor
    · intro a ha hex
      rw [processJob_decomp]
      refine List.mem_append.mpr (Or.inr ?_)
      rw [ha]
      have hcl : cleanupEvents env (vidStrOf env) (some a) =
          Event.unlinkOk a :: cleanupVidPart env (vidStrOf env) := by
        simp [cleanupEvents, hex, har]
      rw [hcl]
      exact List.mem_cons_self _ _
    · intro h1 h2
      rw [processJob_decomp]
      refine List.mem_append.mpr (Or.inr ?_)
      have hv := hvidmem h1 h2
      rcases (jobTry env jid (vidStrOf env)).audio with _ | a
      · exact hv
      · cases hex : env.audioExistsCleanup with
        | false =>
          have hcl : cleanupEvents env (vidStrOf env) (some a) =
              cleanupVidPart env (vidStrOf env) := by
            simp [cleanupEvents, hex]
          rw [hcl]; exact hv
        | true =>
          have hcl : cleanupEvents env (vidStrOf env) (some a) =
              Event.unlinkOk a :: cleanupVidPart env (vidStrOf env) := by
            simp [cleanupEvents, hex, har]
          rw [hcl]
          exact List.mem_cons_of_mem _ hv

/-- Witness for C5: on the all-success environment both the derived
audio file and the source video are deleted. -/
theorem C5_cleanup_witness :
    Event.unlinkOk "/tmp/malfit/uploads/j1.m4a" ∈ processJob envAllOk "j1" ∧
    Event.unlinkOk "/tmp/malfit/uploads/j1.mp4" ∈ processJob envAllOk "j1" :=
  ⟨((C5_cleanup envAllOk "j1").2.2.2 rfl).1 "/tmp/malfit/uploads/j1.m4a" (by decide) rfl,
   by
    have := ((C5_cleanup envAllOk "j1").2.2.2 rfl).2 rfl rfl
    simpa [vidStrOf, envAllOk, pyPathOfString] using this⟩

/-! ### C2 / C3 — the audio-extraction fallback ladder -/

/-- The stderr tail kept by `run_ffmpeg` is bounded by 1200 characters. -/
theorem tail1200_length_le (s : String) : (tail1200 s).length ≤ 1200 := by
  unfold tail1200
  split
  · next h =>
    have hlen : (String.mk (s.data.drop (s.length - 1200))).length =
        s.data.length - (s.length - 1200) := by
      show (s.data.drop (s.length - 1200)).length = s.data.length - (s.length - 1200)
      exact List.length_drop _ _
    rw [hlen]
    have hsl : s.length = s.data.length := rfl
    omega
  · next h => omega

/-- C2 — confirmed.  With an audio stream present, the ladder attempts
stream-copy, then AAC re-encode, then PCM wav, strictly in that order;
the first tier that succeeds (run ok and output file present) yields
the returned path with no later tier invoked; one tier's failure does
not stop the ladder; and only when all three fail does the stage raise,
with a message containing the trailing stderr of each of the three
attempts, each at most 1200 characters. -/
theorem C2_ladder (env : XEnv) (src : String)
    (h : ffprobe_has_audio env.audioProbe = true) :
    (tierOK env 1 = true →
      extract_audio_with_fallback env src =
        (.ok (pathWithSuffix (pathWithSuffix src "") ".m4a"), [1])) ∧
    (tierOK env 1 = false → tierOK env 2 = true →
      extract_audio_with_fallback env src =
        (.ok (pathWithSuffix (pathWithName (pathWithSuffix src "")
          (pathName (pathWithSuffix src "") ++ "_aac")) ".m4a"), [1, 2])) ∧
    (tierOK env 1 = false → tierOK env 2 = false → tierOK env 3 = true →
      extract_audio_with_fallback env src =
        (.ok (pathWithSuffix (pathWithSuffix src "") ".wav"), [1, 2, 3])) ∧
    (tierOK env 1 = false → tierOK env 2 = false → tierOK env 3 = false →
      extract_audio_with_fallback env src =
        (.error ("ffmpeg 추출 실패\n[copy]" ++ (run_ffmpeg env.copyRun).2 ++
                 "\n[aac ]" ++ (run_ffmpeg env.aacRun).2 ++
                 "\n[wav ]" ++ (run_ffmpeg env.wavRun).2), [1, 2, 3]) ∧
      (run_ffmpeg env.copyRun).2.length ≤ 1200 ∧
      (run_ffmpeg env.aacRun).2.length ≤ 1200 ∧
      (run_ffmpeg env.wavRun).2.length ≤ 1200) := by
  have e1 : tierOK env 1 = ((run_ffmpeg env.copyRun).1 && env.copyOut) := by
    norm_num [tierOK]
  have e2 : tierOK env 2 = ((run_ffmpeg env.aacRun).1 && env.aacOut) := by
    norm_num [tierOK]
  have e3 : tierOK env 3 = ((run_ffmpeg env.wavRun).1 && env.wavOut) := by
    norm_num [tierOK]
  refine ⟨fun h1 => ?_, fun h1 h2 => ?_, fun h1 h2 h3 => ?_,
    fun h1 h2 h3 => ⟨?_, tail1200_length_le env.copyRun.stderr,
      tail1200_length_le env.aacRun.stderr, tail1200_length_le env.wavRun.stderr⟩⟩
  · rw [e1, Bool.and_eq_true] at h1
    simp [extract_audio_with_fallback, h, h1.1, h1.2]
  · rw [e1] at h1
    rw [e2, Bool.and_eq_true] at h2
    have hn1 : ¬((run_ffmpeg env.copyRun).1 = true ∧ env.copyOut = true) := by
      rw [← Bool.and_eq_true, h1]; simp
    simp [extract_audio_with_fallback, h, hn1, h2.1, h2.2]
  · rw [e1] at h1
    rw [e2] at h2
    rw [e3, Bool.and_eq_true] at h3
    have hn1 : ¬((run_ffmpeg env.copyRun).1 = true ∧ env.copyOut = true) := by
      rw [← Bool.and_eq_true, h1]; simp
    have hn2 : ¬((run_ffmpeg env.aacRun).1 = true ∧ env.aacOut = true) := by
      rw [← Bool.and_eq_true, h2]; simp
    simp [extract_audio_with_fallback, h, hn1, hn2, h3.1, h3.2]
  · rw [e1] at h1
    rw [e2] at h2
    rw [e3] at h3
    have hn1 : ¬((run_ffmpeg env.copyRun).1 = true ∧ env.copyOut = true) := by
      rw [← Bool.and_eq_true, h1]; simp
    have hn2 : ¬((run_ffmpeg env.aacRun).1 = true ∧ env.aacOut = true) := by
      rw [← Bool.and_eq_true, h2]; simp
    have hn3 : ¬((run_ffmpeg env.wavRun).1 = true ∧ env.wavOut = true) := by
      rw [← Bool.and_eq_true, h3]; simp
    simp [extract_audio_with_fallback, h, hn1, hn2, hn3]

/-- Stream copy fails, AAC re-encode succeeds. -/
def envLadder2 : XEnv :=
  { audioProbe := .ok ⟨0, "aac", ""⟩
    copyRun := ⟨1, "", "copy failed"⟩, copyOut := false
    aacRun := ⟨0, "", ""⟩, aacOut := true
    wavRun := ⟨0, "", ""⟩, wavOut := true }

/-- Witness for C2: tier 1 fails, tier 2 is chosen, tier 3 untouched. -/
theorem C2_ladder_witness :
    ffprobe_has_audio envLadder2.audioProbe = true ∧
    extract_audio_with_fallback envLadder2 "/u/v.mp4" = (.ok "/u/v_aac.m4a", [1, 2]) :=
  ⟨by decide, by
    have step := (C2_ladder envLadder2 "/u/v.mp4" (by decide)).2.1 (by decide) (by decide)
    exact step.trans (by decide)⟩

/-- C3 — confirmed.  When the source has no audio stream (the probe
strips to an empty stdout, or the probe subprocess itself raises), the
stage raises the no-audio error at once and the attempts list is empty:
no ladder tier is invoked. -/
theorem C3_no_audio_short_circuit (env : XEnv) (src : String)
    (h : ffprobe_has_audio env.audioProbe = false) :
    extract_audio_with_fallback env src = (.error noAudioMsg, []) := by
  simp [extract_audio_with_fallback, h]

/-- A source with zero audio streams: ffprobe returns rc 0 and empty
stdout; every ladder tier would succeed if it were attempted. -/
def envNoAudio : XEnv :=
  { audioProbe := .ok ⟨0, "", ""⟩
    copyRun := ⟨0, "", ""⟩, copyOut := true
    aacRun := ⟨0, "", ""⟩, aacOut := true
    wavRun := ⟨0, "", ""⟩, wavOut := true }

/-- Witness for C3 at the zero-audio-stream environment. -/
theorem C3_no_audio_short_circuit_witness :
    ffprobe_has_audio envNoAudio.audioProbe = false ∧
    extract_audio_with_fallback envNoAudio "/u/v.mp4" = (.error noAudioMsg, []) :=
  ⟨by decide, C3_no_audio_short_circuit envNoAudio "/u/v.mp4" (by decide)⟩

/-! ### C10 — totality of ffprobe_duration -/

/-- Whether the duration probe failed: the subprocess raised, exited
non-zero, printed nothing, or printed an unparsable float. -/
def probeFailed (p : Except Unit ProcResult) (parse : String → Bool) : Bool :=
  match p with
  | .error _ => true
  | .ok r => !(r.returncode == 0) || (pyStrip r.stdout).isEmpty || !(parse (pyStrip r.stdout))

/-- An iteration whose source exists always records the probed duration
and then enters the audio-extraction stage, whichever way the later
stages go. -/
theorem jobTry_past_duration (env : JobEnv) (jid vid : String)
    (hfs : env.fsExists vid = true) :
    Event.wDuration (ffprobe_duration env.durProbe env.durParses) ∈
        (jobTry env jid vid).events ∧
      Event.wStatus "audio_extract" ∈ (jobTry env jid vid).events := by
  rcases hx : extract_audio_with_fallback env.xenv vid with ⟨res, att⟩
  cases res with
  | error m => constructor <;> simp [jobTry, hfs, hx]
  | ok audio =>
    cases hw : env.whisperCall with
    | error m => constructor <;> simp [jobTry, hfs, hx, hw]
    | ok srt_text =>
      cases hr : rewrite_srt env.rewriteCall srt_text with
      | error m => constructor <;> simp [jobTry, hfs, hx, hw, hr]
      | ok rew =>
        cases hvo : make_vo_text env.voCall with
        | error m => constructor <;> simp [jobTry, hfs, hx, hw, hr, hvo]
        | ok vo => constructor <;> simp [jobTry, hfs, hx, hw, hr, hvo]

/-- C10 — confirmed.  `ffprobe_duration` is total at the stage
boundary: on any probe failure (raise, non-zero exit, empty output,
unparsable output) it returns `0.0` instead of raising, and when the
source file exists the job records `durationSec = 0.0` and proceeds
into the audio-extraction stage rather than ending in error. -/
theorem C10_duration_total (env : JobEnv) (jid : String)
    (h : probeFailed env.durProbe env.durParses = true)
    (hv : env.fsExists (vidStrOf env) = true) :
    ffprobe_duration env.durProbe env.durParses = PyFloat.zero ∧
    Event.wDuration PyFloat.zero ∈ processJob env jid ∧
    Event.wStatus "audio_extract" ∈ processJob env jid := by
  have hzero : ffprobe_duration env.durProbe env.durParses = PyFloat.zero := by
    rcases hp : env.durProbe with u | r
    · rfl
    · rw [hp] at h
      cases h1 : (r.returncode == 0) <;>
        cases h2 : (pyStrip r.stdout).isEmpty <;>
          cases h3 : env.durParses (pyStrip r.stdout) <;>
            simp_all [ffprobe_duration, probeFailed]
  obtain ⟨hd, hs⟩ := jobTry_past_duration env jid (vidStrOf env) hv
  rw [hzero] at hd
  exact ⟨hzero,
    List.mem_append.mpr (Or.inl (List.mem_append.mpr (Or.inl hd))),
    List.mem_append.mpr (Or.inl (List.mem_append.mpr (Or.inl hs)))⟩

/-- The duration probe subprocess raises; everything else succeeds. -/
def envDurFail : JobEnv := { envAllOk with durProbe := .error () }

/-- Witness for C10: the probe raises, the job records duration `0.0`
and still reaches the extraction stage. -/
theorem C10_duration_total_witness :
    ffprobe_duration envDurFail.durProbe envDurFail.durParses = PyFloat.zero ∧
    Event.wDuration PyFloat.zero ∈ processJob envDurFail "j1" ∧
    Event.wStatus "audio_extract" ∈ processJob envDurFail "j1" :=
  C10_duration_total envDurFail "j1" (by decide) (by decide)

/-! ### Further trace helpers -/

theorem statusWrites_append (a b : List Event) :
    statusWrites (a ++ b) = statusWrites a ++ statusWrites b :=
  List.filterMap_append a b statusOf

theorem processJob_statusWrites (env : JobEnv) (jid : String) :
    statusWrites (processJob env jid) =
      statusWrites (jobTry env jid (vidStrOf env)).events ++
        statusWrites (errorEvents (jobTry env jid (vidStrOf env)).err) := by
  rw [processJob_decomp, statusWrites_append, statusWrites_append,
    cleanup_statusWrites_nil, List.append_nil]

theorem wStatus_mem_statusWrites {s : String} {tr : List Event}
    (h : Event.wStatus s ∈ tr) : s ∈ statusWrites tr :=
  List.mem_filterMap.mpr ⟨_, h, rfl⟩

/-- The `try` block never writes the `error` field: that write belongs
solely to the `except` handler. -/
theorem jobTry_no_wError (env : JobEnv) (jid vid m : String) :
    Event.wError m ∉ (jobTry env jid vid).events := by
  cases hfs : env.fsExists vid with
  | false => simp [jobTry, hfs]
  | true =>
    rcases hx : extract_audio_with_fallback env.xenv vid with ⟨res, att⟩
    cases res with
    | error m2 => simp [jobTry, hfs, hx]
    | ok audio =>
      cases hw : env.whisperCall with
      | error m2 => simp [jobTry, hfs, hx, hw]
      | ok srt_text =>
        cases hr : rewrite_srt env.rewriteCall srt_text with
        | error m2 => simp [jobTry, hfs, hx, hw, hr]
        | ok rew =>
          cases hvo : make_vo_text env.voCall with
          | error m2 => simp [jobTry, hfs, hx, hw, hr, hvo]
          | ok vo => simp [jobTry, hfs, hx, hw, hr, hvo]

/-! ### C6 — rewrite-stage degradation -/

/-- The rewrite remote call raises; everything else succeeds. -/
def envRewriteFail : JobEnv := { envAllOk with rewriteCall := .error "rewrite down" }

/-- C6 — counterexample.  When the rewrite remote call *raises*, the
job does not reach `done`: it terminates in `error` carrying the raised
message, and the voice-over stage never runs.  The pass-through
fallback exists only for a successful call with empty content. -/
theorem C6_counterexample :
    finalStatus (processJob envRewriteFail "j1") = some "error" ∧
    "done" ∉ statusWrites (processJob envRewriteFail "j1") ∧
    Event.wStatus "vo" ∉ processJob envRewriteFail "j1" ∧
    Event.wError "rewrite down" ∈ processJob envRewriteFail "j1" := by
  decide

/-- Whether an `Except` is a success. -/
def exOk {ε α : Type} : Except ε α → Bool
  | .ok _ => true
  | .error _ => false

/-- The job reaches the rewrite stage: the source exists, extraction
succeeded and transcription succeeded. -/
def reachesRewriteStage (env : JobEnv) : Bool :=
  env.fsExists (vidStrOf env) &&
    exOk (extract_audio_with_fallback env.xenv (vidStrOf env)).1 &&
    exOk env.whisperCall

/-- C6 — amended.  If the rewrite remote call raises, the job ends in
`error` with that message and the voice-over stage does not run; the
pass-through fallback applies only when the call *returns* with
`None`/empty content, in which case the rewritten artifact is the
original transcript, the voice-over stage still executes, and (when
voice-over answers) the job reaches `done`. -/
theorem C6_amended_rewrite_degradation (env : JobEnv) (jid : String)
    (h : reachesRewriteStage env = true) :
    (∀ m, env.rewriteCall = .error m →
      finalStatus (processJob env jid) = some "error" ∧
      Event.wStatus "vo" ∉ processJob env jid ∧
      Event.wError m ∈ processJob env jid) ∧
    (env.rewriteCall = .ok none →
      (∀ s, env.whisperCall = .ok s →
        Event.writeFile (rewPath jid) s ∈ processJob env jid) ∧
      Event.wStatus "vo" ∈ processJob env jid ∧
      (∀ c, env.voCall = .ok c → finalStatus (processJob env jid) = some "done")) := by
  simp only [reachesRewriteStage, Bool.and_eq_true] at h
  obtain ⟨⟨hfs, hexd⟩, hwd⟩ := h
  rcases hx : extract_audio_with_fallback env.xenv (vidStrOf env) with ⟨res, att⟩
  rw [hx] at hexd
  cases res with
  | error m0 => cases hexd
  | ok audio =>
  cases hwc : env.whisperCall with
  | error m0 => rw [hwc] at hwd; cases hwd
  | ok s =>
  constructor
  · intro m hrc
    have hrs : rewrite_srt env.rewriteCall s = .error m := by rw [hrc]; rfl
    have herr : (jobTry env jid (vidStrOf env)).err = some m := by
      simp [jobTry, hfs, hx, hwc, hrs]
    have hstE : statusWrites (jobTry env jid (vidStrOf env)).events =
        ["downloading", "audio_extract", "whisper", "rewrite"] := by
      simp [jobTry, hfs, hx, hwc, hrs, statusWrites, statusOf]
    have hsw : statusWrites (processJob env jid) =
        ["downloading", "audio_extract", "whisper", "rewrite", "error"] := by
      rw [processJob_statusWrites, hstE, herr]; rfl
    refine ⟨?_, ?_, ?_⟩
    · rw [finalStatus, hsw]; rfl
    · intro hmem
      have hv := wStatus_mem_statusWrites hmem
      rw [hsw] at hv
      revert hv; decide
    · rw [processJob_decomp, herr]
      exact List.mem_append.mpr (Or.inl (List.mem_append.mpr (Or.inr (by
        simp [errorEvents]))))
  · intro hrc
    have hrs : rewrite_srt env.rewriteCall s = .ok s := by rw [hrc]; rfl
    refine ⟨?_, ?_, ?_⟩
    · intro s2 hs2
      have hse : s = s2 := Except.ok.inj hs2
      subst hse
      have hmem : Event.writeFile (rewPath jid) s ∈ (jobTry env jid (vidStrOf env)).events := by
        cases hvo : make_vo_text env.voCall with
        | error m0 => simp [jobTry, hfs, hx, hwc, hrs, hvo]
        | ok vo => simp [jobTry, hfs, hx, hwc, hrs, hvo]
      rw [processJob_decomp]
      exact List.mem_append.mpr (Or.inl (List.mem_append.mpr (Or.inl hmem)))
    · have hmem : Event.wStatus "vo" ∈ (jobTry env jid (vidStrOf env)).events := by
        cases hvo : make_vo_text env.voCall with
        | error m0 => simp [jobTry, hfs, hx, hwc, hrs, hvo]
        | ok vo => simp [jobTry, hfs, hx, hwc, hrs, hvo]
      rw [processJob_decomp]
      exact List.mem_append.mpr (Or.inl (List.mem_append.mpr (Or.inl hmem)))
    · intro c hc
      have hvo : make_vo_text env.voCall = .ok (pyStrip (c.getD "")) := by
        rw [hc]; rfl
      have herr : (jobTry env jid (vidStrOf env)).err = none := by
        simp [jobTry, hfs, hx, hwc, hrs, hvo]
      obtain ⟨n, -, -, -, -, hfin, hiff⟩ := processJob_shape env jid
      rw [if_pos (hiff.mp herr)] at hfin
      exact hfin

/-- The rewrite remote call answers with `None` content. -/
def envRewriteNone : JobEnv := { envAllOk with rewriteCall := .ok none }

/-- Witness for C6 at both concrete environments: a raising rewrite
call yields `error` without voice-over; a `None`-content rewrite
passes the transcript through and still reaches `done`. -/
theorem C6_amended_rewrite_degradation_witness :
    (finalStatus (processJob envRewriteFail "j1") = some "error" ∧
      Event.wStatus "vo" ∉ processJob envRewriteFail "j1") ∧
    (Event.writeFile (rewPath "j1") "SRTTEXT" ∈ processJob envRewriteNone "j1" ∧
      finalStatus (processJob envRewriteNone "j1") = some "done") :=
  ⟨⟨((C6_amended_rewrite_degradation envRewriteFail "j1" (by decide)).1
      "rewrite down" rfl).1,
    ((C6_amended_rewrite_degradation envRewriteFail "j1" (by decide)).1
      "rewrite down" rfl).2.1⟩,
   ⟨(((C6_amended_rewrite_degradation envRewriteNone "j1" (by decide)).2 rfl).1
      "SRTTEXT" rfl),
    (((C6_amended_rewrite_degradation envRewriteNone "j1" (by decide)).2 rfl).2.2
      (some "VOSCRIPT") rfl)⟩⟩

/-! ### C9 — dequeued job id with a missing record -/

/-- The Job-Store record is missing (no `video` field): `Path("")`
resolves to `"."`, the working directory, which exists; ffprobe on a
directory exits non-zero with empty stdout. -/
def envC9 : JobEnv :=
  { envAllOk with
    videoField := none
    fsExists := fun p => p = "."
    xenv := { envAllOk.xenv with audioProbe := .ok ⟨1, "", "not a media file"⟩ } }

/-- C9 — counterexample.  With a missing record the worker does *not*
take the missing-source branch: `Path("")` is `"."`, which exists, so
the `vid.exists()` guard passes and the job instead fails at the
no-audio check, recording that message. -/
theorem C9_counterexample :
    finalStatus (processJob envC9 "j9") = some "error" ∧
    Event.wError ("업로드된 파일 없음: .") ∉ processJob envC9 "j9" ∧
    Event.wError noAudioMsg ∈ processJob envC9 "j9" := by
  decide

/-- C9 — amended.  When the record is missing or has no video path, the
worker still does not crash and continues with the next queue item,
but the mechanism differs from the claim: the empty path resolves to
the current directory, which exists, so the missing-file check passes
and the job fails at the no-audio check, recording `status=error` with
the no-audio description (not the missing-file one). -/
theorem C9_amended_missing_record (env : JobEnv) (jid : String)
    (rest : List (Option (String × JobEnv)))
    (h0 : env.videoField = none)
    (h1 : env.fsExists "." = true)
    (h2 : ffprobe_has_audio env.xenv.audioProbe = false) :
    workerLoop (some (jid, env) :: rest) = processJob env jid ++ workerLoop rest ∧
    Event.wError ("업로드된 파일 없음: .") ∉ processJob env jid ∧
    Event.wError noAudioMsg ∈ processJob env jid ∧
    finalStatus (processJob env jid) = some "error" := by
  have hvid : vidStrOf env = "." := by
    rw [vidStrOf, h0]
    rfl
  have hx : extract_audio_with_fallback env.xenv "." = (.error noAudioMsg, []) := by
    simp [extract_audio_with_fallback, h2]
  have herr : (jobTry env jid (vidStrOf env)).err = some noAudioMsg := by
    rw [hvid]
    simp [jobTry, h1, hx]
  refine ⟨rfl, ?_, ?_, ?_⟩
  · intro hmem
    rw [processJob_decomp] at hmem
    rcases List.mem_append.mp hmem with h12 | h3
    · rcases List.mem_append.mp h12 with hA | hB
      · exact jobTry_no_wError env jid (vidStrOf env) _ hA
      · rw [herr] at hB
        have : ("업로드된 파일 없음: .") = noAudioMsg := by
          simpa [errorEvents] using hB
        revert this; decide
    · have := cleanup_all_unlink env (vidStrOf env) _ _ h3
      simp [isUnlink] at this
  · rw [processJob_decomp, herr]
    exact List.mem_append.mpr (Or.inl (List.mem_append.mpr (Or.inr (by
      simp [errorEvents]))))
  · obtain ⟨n, -, -, -, -, hfin, hiff⟩ := processJob_shape env jid
    have hn : n ≠ 5 := fun h5eq => by
      rw [hiff.mpr h5eq] at herr; cases herr
    rwa [if_neg hn] at hfin

/-- Witness for C9 at the concrete missing-record environment. -/
theorem C9_amended_missing_record_witness :
    Event.wError noAudioMsg ∈ processJob envC9 "j9" ∧
    finalStatus (processJob envC9 "j9") = some "error" :=
  ⟨(C9_amended_missing_record envC9 "j9" [] rfl (by decide) (by decide)).2.2.1,
   (C9_amended_missing_record envC9 "j9" [] rfl (by decide) (by decide)).2.2.2⟩

/-! ### C7 — artifact paths and the download endpoint -/

/-- A job id free of `.` and `/` (true of the `uuid4` ids the intake
generates). -/
def plainName (s : String) : Bool :=
  s.data.all fun c => !(c == '.') && !(c == '/')

theorem plainName_spec {s : String} (h : plainName s = true) :
    ∀ c ∈ s.data, c ≠ '.' ∧ c ≠ '/' := by
  intro c hc
  have hall := List.all_eq_true.mp h c hc
  constructor
  · intro hd; subst hd; exact absurd hall (by decide)
  · intro hs2; subst hs2; exact absurd hall (by decide)

theorem nameChars_append (pre n : List Char) (hn : ∀ c ∈ n, c ≠ '/') :
    nameChars (pre ++ '/' :: n) = n ∧ dirChars (pre ++ '/' :: n) = pre ++ ['/'] := by
  have hall : ∀ c ∈ n.reverse, (fun c => decide (c ≠ '/')) c = true := by
    intro c hc
    simp only [decide_eq_true_eq]
    exact hn c (List.mem_reverse.mp hc)
  have hrev : (pre ++ '/' :: n).reverse = n.reverse ++ '/' :: pre.reverse := by
    simp
  constructor
  · unfold nameChars
    rw [hrev, takeWhile_append_stop (fun c => decide (c ≠ '/')) n.reverse pre.reverse '/'
      hall (by decide), List.reverse_reverse]
  · unfold dirChars
    rw [hrev, dropWhile_append_stop (fun c => decide (c ≠ '/')) n.reverse pre.reverse '/'
      hall (by decide)]
    simp

theorem extSplit_no_dot (n : List Char) (h : ∀ c ∈ n, c ≠ '.') :
    extSplit n = (n, []) := by
  have hall : ∀ c ∈ n.reverse, (fun c => decide (c ≠ '.')) c = true := by
    intro c hc
    simp only [decide_eq_true_eq]
    exact h c (List.mem_reverse.mp hc)
  unfold extSplit
  rw [takeWhile_eq_self (fun c => decide (c ≠ '.')) n.reverse hall]
  simp

theorem pathWithSuffix_plain (d jid suf : String)
    (hj : ∀ c ∈ jid.data, c ≠ '.' ∧ c ≠ '/') :
    pathWithSuffix (d ++ "/" ++ jid) suf = d ++ "/" ++ jid ++ suf := by
  have hdata : (d ++ "/" ++ jid).data = d.data ++ '/' :: jid.data := by
    rw [String.data_append, String.data_append]
    simp
  obtain ⟨hname, hdir⟩ := nameChars_append d.data jid.data (fun c hc => (hj c hc).2)
  apply String.ext
  simp only [pathWithSuffix, hdata, hname, hdir,
    extSplit_no_dot jid.data (fun c hc => (hj c hc).1), String.data_append]
  simp

theorem pathWithName_plain (d jid n : String) (hj : ∀ c ∈ jid.data, c ≠ '/') :
    pathWithName (d ++ "/" ++ jid) n = d ++ "/" ++ n := by
  have hdata : (d ++ "/" ++ jid).data = d.data ++ '/' :: jid.data := by
    rw [String.data_append, String.data_append]
    simp
  obtain ⟨-, hdir⟩ := nameChars_append d.data jid.data hj
  apply String.ext
  simp only [pathWithName, hdata, hdir, String.data_append]

theorem plain_append (a b : String)
    (ha : ∀ c ∈ a.data, c ≠ '.' ∧ c ≠ '/')
    (hb : ∀ c ∈ b.data, c ≠ '.' ∧ c ≠ '/') :
    ∀ c ∈ (a ++ b).data, c ≠ '.' ∧ c ≠ '/' := by
  intro c hc
  rw [String.data_append] at hc
  rcases List.mem_append.mp hc with h | h
  exacts [ha c h, hb c h]

theorem srtPath_plain (jid : String) (hp : plainName jid = true) :
    srtPath jid = OUTDIR ++ "/" ++ jid ++ ".srt" :=
  pathWithSuffix_plain OUTDIR jid ".srt" (plainName_spec hp)

theorem rewPath_plain (jid : String) (hp : plainName jid = true) :
    rewPath jid = OUTDIR ++ "/" ++ (jid ++ "_rewritten") ++ ".srt" :=
  pathWithSuffix_plain OUTDIR (jid ++ "_rewritten") ".srt"
    (plain_append jid "_rewritten" (plainName_spec hp) (by decide))

theorem voPath_plain (jid : String) (hp : plainName jid = true) :
    voPath jid = OUTDIR ++ "/" ++ (jid ++ "_vo") ++ ".txt" :=
  pathWithSuffix_plain OUTDIR (jid ++ "_vo") ".txt"
    (plain_append jid "_vo" (plainName_spec hp) (by decide))

theorem artifactPaths_nodup (jid : String) (hp : plainName jid = true) :
    [srtPath jid, rewPath jid, voPath jid].Nodup := by
  have l1 : (srtPath jid).length = OUTDIR.length + 1 + jid.length + 4 := by
    rw [srtPath_plain jid hp, String.length_append, String.length_append,
      String.length_append]
    norm_num [show ("/" : String).length = 1 from rfl,
      show (".srt" : String).length = 4 from rfl]
  have l2 : (rewPath jid).length = OUTDIR.length + 1 + jid.length + 14 := by
    rw [rewPath_plain jid hp, String.length_append, String.length_append,
      String.length_append, String.length_append]
    norm_num [show ("/" : String).length = 1 from rfl,
      show (".srt" : String).length = 4 from rfl,
      show ("_rewritten" : String).length = 10 from rfl]
    omega
  have l3 : (voPath jid).length = OUTDIR.length + 1 + jid.length + 7 := by
    rw [voPath_plain jid hp, String.length_append, String.length_append,
      String.length_append, String.length_append]
    norm_num [show ("/" : String).length = 1 from rfl,
      show (".txt" : String).length = 4 from rfl,
      show ("_vo" : String).length = 3 from rfl]
    omega
  rw [List.nodup_cons, List.nodup_cons]
  refine ⟨?_, ?_, List.nodup_singleton _⟩
  · simp only [List.mem_cons, List.mem_singleton, not_or]
    exact ⟨fun h => by have := congrArg String.length h; omega,
           fun h => by have := congrArg String.length h; omega,
           by simp⟩
  · simp only [List.mem_cons, List.mem_singleton, not_or]
    exact ⟨fun h => by have := congrArg String.length h; omega, by simp⟩

theorem download_srt_iff (fs : String → Bool) (jid : String) :
    (download fs jid "srt" ≠ .notFound) ↔ fs (srtPath jid) = true := by
  have hd : download fs jid "srt" =
      if fs (srtPath jid) then
        DownloadResult.file (srtPath jid)
          (if pathSuffix (srtPath jid) = ".txt" then "text/plain" else "application/x-subrip")
          (pathName (srtPath jid))
      else .notFound := rfl
  rw [hd]
  cases hfs2 : fs (srtPath jid) <;> simp [hfs2]

theorem download_rewritten_iff (fs : String → Bool) (jid : String)
    (hp : plainName jid = true) :
    (download fs jid "rewritten" ≠ .notFound) ↔ fs (rewPath jid) = true := by
  have hpathEq : pathWithSuffix (pathWithName (pathJoin OUTDIR jid)
      (jid ++ "_rewritten")) ".srt" = rewPath jid := by
    rw [pathJoin, pathWithName_plain OUTDIR jid (jid ++ "_rewritten")
      (fun c hc => (plainName_spec hp c hc).2)]
    rfl
  have hd : download fs jid "rewritten" =
      if fs (pathWithSuffix (pathWithName (pathJoin OUTDIR jid)
          (jid ++ "_rewritten")) ".srt") then
        DownloadResult.file
          (pathWithSuffix (pathWithName (pathJoin OUTDIR jid) (jid ++ "_rewritten")) ".srt")
          (if pathSuffix (pathWithSuffix (pathWithName (pathJoin OUTDIR jid)
              (jid ++ "_rewritten")) ".srt") = ".txt" then "text/plain"
           else "application/x-subrip")
          (pathName (pathWithSuffix (pathWithName (pathJoin OUTDIR jid)
            (jid ++ "_rewritten")) ".srt"))
      else .notFound := rfl
  rw [hd, hpathEq]
  cases hfs2 : fs (rewPath jid) <;> simp [hfs2]

theorem download_vo_iff (fs : String → Bool) (jid : String)
    (hp : plainName jid = true) :
    (download fs jid "vo" ≠ .notFound) ↔ fs (voPath jid) = true := by
  have hpathEq : pathWithSuffix (pathWithName (pathJoin OUTDIR jid)
      (jid ++ "_vo")) ".txt" = voPath jid := by
    rw [pathJoin, pathWithName_plain OUTDIR jid (jid ++ "_vo")
      (fun c hc => (plainName_spec hp c hc).2)]
    rfl
  have hd : download fs jid "vo" =
      if fs (pathWithSuffix (pathWithName (pathJoin OUTDIR jid)
          (jid ++ "_vo")) ".txt") then
        DownloadResult.file
          (pathWithSuffix (pathWithName (pathJoin OUTDIR jid) (jid ++ "_vo")) ".txt")
          (if pathSuffix (pathWithSuffix (pathWithName (pathJoin OUTDIR jid)
              (jid ++ "_vo")) ".txt") = ".txt" then "text/plain"
           else "application/x-subrip")
          (pathName (pathWithSuffix (pathWithName (pathJoin OUTDIR jid)
            (jid ++ "_vo")) ".txt"))
      else .notFound := rfl
  rw [hd, hpathEq]
  cases hfs2 : fs (voPath jid) <;> simp [hfs2]

/-- C7 — counterexample.  A job that fails at the rewrite stage ends
with `status=error`, yet its transcript artifact `{jid}.srt` was
already written, and `download` — which checks only file existence,
never the job status — serves it.  So an artifact can be downloaded
while the job's status is not `done`. -/
theorem C7_counterexample :
    finalStatus (processJob envRewriteFail "j1") = some "error" ∧
    Event.writeFile (srtPath "j1") "SRTTEXT" ∈ processJob envRewriteFail "j1" ∧
    download (fun p => (writtenPaths (processJob envRewriteFail "j1")).contains p)
        "j1" "srt" =
      .file (srtPath "j1") "application/x-subrip" "j1.srt" := by
  decide

/-- C7 — amended.  The three artifacts are written at the convention
paths `{jid}.srt`, `{jid}_rewritten.srt`, `{jid}_vo.txt` (for a dot-
and slash-free job id), each at most once per execution and all three
exactly once when the job reaches `done`; `download` serves an
artifact exactly when its kind is one of `srt`/`rewritten`/`vo` and
the file exists — readiness is keyed on file existence, not on
`status=done`, so an artifact may be downloadable before the job is
done — and answers not-found for every other kind. -/
theorem C7_amended_artifacts_download (env : JobEnv) (jid : String) (fs : String → Bool)
    (hp : plainName jid = true) :
    srtPath jid = OUTDIR ++ "/" ++ jid ++ ".srt" ∧
    rewPath jid = OUTDIR ++ "/" ++ (jid ++ "_rewritten") ++ ".srt" ∧
    voPath jid = OUTDIR ++ "/" ++ (jid ++ "_vo") ++ ".txt" ∧
    [srtPath jid, rewPath jid, voPath jid].Nodup ∧
    (∃ n, n ≤ 3 ∧
      writtenPaths (processJob env jid) = [srtPath jid, rewPath jid, voPath jid].take n ∧
      (finalStatus (processJob env jid) = some "done" →
        writtenPaths (processJob env jid) = [srtPath jid, rewPath jid, voPath jid])) ∧
    ((download fs jid "srt" ≠ .notFound) ↔ fs (srtPath jid) = true) ∧
    ((download fs jid "rewritten" ≠ .notFound) ↔ fs (rewPath jid) = true) ∧
    ((download fs jid "vo" ≠ .notFound) ↔ fs (voPath jid) = true) ∧
    (∀ kind, kind ≠ "srt" → kind ≠ "rewritten" → kind ≠ "vo" →
      download fs jid kind = .notFound) := by
  refine ⟨srtPath_plain jid hp, rewPath_plain jid hp, voPath_plain jid hp,
    artifactPaths_nodup jid hp, ?_, download_srt_iff fs jid,
    download_rewritten_iff fs jid hp, download_vo_iff fs jid hp, ?_⟩
  · obtain ⟨m, hm5, -, -, hwp, hfin, -⟩ := processJob_shape env jid
    refine ⟨m - 2, by omega, hwp, fun hdone => ?_⟩
    by_cases hm : m = 5
    · rw [hwp, hm]; rfl
    · rw [hfin, if_neg hm] at hdone
      have : ("error" : String) = "done" := Option.some.inj hdone
      exact absurd this (by decide)
  · intro kind h1 h2 h3
    simp [download, h1, h2, h3]

/-- Witness for C7: on the all-success environment exactly the three
artifacts are written, and with `{jid}.srt` on disk the download
endpoint serves kind `srt`. -/
theorem C7_amended_artifacts_download_witness :
    writtenPaths (processJob envAllOk "j1") = [srtPath "j1", rewPath "j1", voPath "j1"] ∧
    download (fun p => p = srtPath "j1") "j1" "srt" ≠ .notFound :=
  ⟨by decide,
   ((C7_amended_artifacts_download envAllOk "j1" (fun p => p = srtPath "j1")
      (by decide)).2.2.2.2.2.1).mpr (by decide)⟩

end Malfit
